import Mathlib

/-!
Verification of the batch-witness queue model of
binance/zkmerkle-proof-of-solvency (src/witness/witness_db, src/utils/db.go,
src/prover/prover/proof_model.go).

The table is modelled as a list of rows.  Statement failures that originate
in the store (lost connections, statement-timeout kills, uniqueness
violations) are injected through explicit oracle parameters, so that the
rollback and error-translation behaviour of the Go code can be stated and
proved.  Wall-clock time (the NOW() calls) is passed in as a natural number.
-/

/-- Raw errors reported by the MySQL driver.  `dupEntry` is the
uniqueness-violation error (MySQL error 1062), the others stand for any
store-originated failure such as a statement-timeout kill. -/
inductive MysqlErr
  | dupEntry
  | timeoutKilled
  | connLost
deriving DecidableEq, Repr

/-- The sentinel error kinds of the utils package: DbErrNotFound,
the duplicate-key kind, and DbErrSqlOperation (the StorageFailure kind). -/
inductive DbErr
  | notFound
  | conflict
  | sqlOperation
deriving DecidableEq, Repr

/-- An error escaping a queue operation: either one of the translated
sentinel kinds, or a raw driver error returned without translation. -/
inductive QueueErr
  | db (e : DbErr)
  | raw (e : MysqlErr)
deriving DecidableEq, Repr

instance {α β : Type} [DecidableEq α] [DecidableEq β] : DecidableEq (Except α β) :=
  fun a b =>
    match a, b with
    | .ok x, .ok y =>
      if h : x = y then isTrue (by rw [h]) else isFalse (fun hc => h (Except.ok.inj hc))
    | .error e, .error f =>
      if h : e = f then isTrue (by rw [h]) else isFalse (fun hc => h (Except.error.inj hc))
    | .ok _, .error _ => isFalse (fun hc => Except.noConfusion hc)
    | .error _, .ok _ => isFalse (fun hc => Except.noConfusion hc)

/-- Modelled from the spec: utils.ConvertMysqlErrToDbErr is not under src/.
Per the error taxonomy of the spec it maps a uniqueness violation to the
Conflict kind and every other store error to the StorageFailure kind. -/
def convertMysqlErrToDbErr : MysqlErr → DbErr
  | .dupEntry => .conflict
  | _ => .sqlOperation

/-- Stage constants of the witness package (db.go lines 94-98). -/
def StatusPublished : Int := 0

/-- Second stage constant. -/
def StatusReceived : Int := 1

/-- Terminal stage constant. -/
def StatusFinished : Int := 2

/-- One row of the batch-witness table (db.go lines 125-133).  deletedAt is
the soft-delete marker; a row is active while it is `none`. -/
structure BatchWitness where
  id : Nat
  createdAt : Nat
  updatedAt : Nat
  deletedAt : Option Nat
  height : Int
  witnessData : String
  status : Int
deriving DecidableEq, Repr

/-- Comparison used by ORDER BY height ASC. -/
def heightLeProp (a b : BatchWitness) : Prop :=
  a.height ≤ b.height

instance : DecidableRel heightLeProp :=
  fun a b => Int.decLe a.height b.height

instance : IsTotal BatchWitness heightLeProp :=
  ⟨fun a b => Int.le_total a.height b.height⟩

instance : IsTrans BatchWitness heightLeProp :=
  ⟨fun _ _ _ hab hbc => le_trans hab hbc⟩

/-- The result order of a query with ORDER BY height ASC. -/
def sortByHeight (l : List BatchWitness) : List BatchWitness :=
  List.insertionSort heightLeProp l

/-- Row predicate of WHERE status = ? AND deleted_at IS NULL. -/
def matchesStatus (before : Int) (r : BatchWitness) : Bool :=
  r.status == before && r.deletedAt.isNone

/-- Row predicate of WHERE height = ? AND status = ? AND deleted_at IS NULL. -/
def matchesHeightStatus (h before : Int) (r : BatchWitness) : Bool :=
  r.height == h && r.status == before && r.deletedAt.isNone

/-- Effect of UPDATE ... SET status = ?, updated_at = NOW() WHERE height = ?
(db.go line 246): every row whose height matches is updated, with no
deleted_at or status filter. -/
def applyStatusUpdate (h : Int) (st : Int) (now : Nat)
    (tbl : List BatchWitness) : List BatchWitness :=
  tbl.map (fun r => if r.height = h then { r with status := st, updatedAt := now } else r)

/-- Store-failure injection for one claim transaction: `selectFail` makes the
locking select statement fail, `updateFail i` makes the i-th update statement
of the loop fail. -/
structure TxOracle where
  selectFail : Option MysqlErr
  updateFail : Nat → Option MysqlErr

/-- The row set returned by the locking select of
GetAndUpdateBatchesWitnessByStatus (db.go line 225):
WHERE status = ? AND deleted_at IS NULL ORDER BY height ASC LIMIT ?. -/
def selectForClaimByStatus (before : Int) (count : Nat)
    (tbl : List BatchWitness) : List BatchWitness :=
  (sortByHeight (tbl.filter (matchesStatus before))).take count

/-- The row set returned by the locking select of
GetAndUpdateBatchesWitnessByHeight (db.go line 271):
WHERE height = ? AND status = ? AND deleted_at IS NULL ORDER BY height ASC. -/
def selectForClaimByHeight (h before : Int)
    (tbl : List BatchWitness) : List BatchWitness :=
  sortByHeight (tbl.filter (matchesHeightStatus h before))

/-- The update loop of the claim transactions (db.go lines 246-252): one
update statement per selected row, in selection order, each applied to the
transaction-local state; the loop stops at the first failing statement and
hands back the raw driver error. -/
def updateLoop (o : TxOracle) (now : Nat) (after : Int) :
    List BatchWitness → Nat → List BatchWitness → List BatchWitness × Option MysqlErr
  | tbl, _, [] => (tbl, none)
  | tbl, i, w :: ws =>
    match o.updateFail i with
    | some e => (tbl, some e)
    | none => updateLoop o now after (applyStatusUpdate w.height after now tbl) (i + 1) ws

/-- Shared transaction body of both claim operations (db.go lines 241-254
and 287-300, which are textually identical): DbErrNotFound on an empty
selection (before any update is issued), the raw driver error of the first
failing update otherwise, and on success the scanned rows together with the
fully updated state.  The first component is the table state the transaction
commits; every error path rolls back to the incoming table, mirroring the
deferred rollback handler (lines 216-222 and 262-268). -/
def claimTx (o : TxOracle) (now : Nat) (tbl : List BatchWitness)
    (after : Int) (ws : List BatchWitness) :
    List BatchWitness × Except QueueErr (List BatchWitness) :=
  if ws = [] then (tbl, .error (.db .notFound))
  else
    match updateLoop o now after tbl 0 ws with
    | (_, some e) => (tbl, .error (.raw e))
    | (tbl2, none) => (tbl2, .ok ws)

/-- GetAndUpdateBatchesWitnessByStatus (db.go lines 211-255).  Runs inside a
transaction whose deferred handler commits on success and rolls back on any
error, so an error result leaves the committed table untouched.  A failed
select is passed through ConvertMysqlErrToDbErr (line 228); the rest is the
shared transaction body.  On success the selected rows are returned exactly
as scanned, i.e. still bearing beforeStatus. -/
def getAndUpdateBatchesWitnessByStatus (o : TxOracle) (now : Nat)
    (tbl : List BatchWitness) (before after : Int) (count : Nat) :
    List BatchWitness × Except QueueErr (List BatchWitness) :=
  match o.selectFail with
  | some e => (tbl, .error (.db (convertMysqlErrToDbErr e)))
  | none => claimTx o now tbl after (selectForClaimByStatus before count tbl)

/-- GetAndUpdateBatchesWitnessByHeight (db.go lines 257-301): same
transaction shape as the by-status claim, with the candidate set filtered to
one height and no LIMIT. -/
def getAndUpdateBatchesWitnessByHeight (o : TxOracle) (now : Nat)
    (tbl : List BatchWitness) (h before after : Int) :
    List BatchWitness × Except QueueErr (List BatchWitness) :=
  match o.selectFail with
  | some e => (tbl, .error (.db (convertMysqlErrToDbErr e)))
  | none => claimTx o now tbl after (selectForClaimByHeight h before tbl)

/-- The page computed by the paginated heights query (db.go line 333):
SELECT height ... WHERE status = ? AND deleted_at IS NULL
ORDER BY height ASC LIMIT ? OFFSET ?; the offset is applied to the sorted
result before the limit. -/
def heightsPage (tbl : List BatchWitness) (status : Int)
    (limit offset : Nat) : List Int :=
  (((sortByHeight (tbl.filter (matchesStatus status))).drop offset).take limit).map
    (fun r => r.height)

/-- GetAllBatchHeightsByStatus (db.go lines 332-353): the paginated heights
query, then DbErrNotFound on an empty page (line 350). -/
def getAllBatchHeightsByStatus (tbl : List BatchWitness) (status : Int)
    (limit offset : Nat) : Except QueueErr (List Int) :=
  let hs := heightsPage tbl status limit offset
  if hs = [] then .error (.db .notFound) else .ok hs

/-- The store-level uniqueness check enforced by the schema constraint
`height BIGINT NOT NULL UNIQUE` (db.go line 153).  The constraint is an
ordinary unique index with no deleted_at filter (MySQL has no partial
indexes), so it spans all rows, soft-deleted ones included. -/
def heightExists (tbl : List BatchWitness) (h : Int) : Bool :=
  tbl.any (fun r => r.height == h)

/-- CreateBatchWitness (db.go lines 317-330): one independent insert per
input record (height, witness_data, status bound; timestamps set to NOW()),
no transaction across the list.  A uniqueness violation surfaces as the raw
driver error, returned without translation (line 326); earlier inserts of
the same call remain. -/
def createBatchWitness (now : Nat) (firstId : Nat) (tbl : List BatchWitness) :
    List BatchWitness → List BatchWitness × Except QueueErr Unit
  | [] => (tbl, .ok ())
  | w :: rest =>
    if heightExists tbl w.height then (tbl, .error (.raw .dupEntry))
    else
      createBatchWitness now (firstId + 1)
        (tbl ++ [⟨firstId, now, now, none, w.height, w.witnessData, w.status⟩]) rest

/-- UpdateBatchWitnessStatus (db.go lines 355-359):
UPDATE ... SET status = ?, updated_at = NOW() WHERE height = ? via a plain
Exec; the affected-row count of the result is discarded, so a zero-row
update still succeeds.  A driver error is returned raw. -/
def updateBatchWitnessStatus (execFail : Option MysqlErr) (now : Nat)
    (tbl : List BatchWitness) (w : BatchWitness) (status : Int) :
    List BatchWitness × Except QueueErr Unit :=
  match execFail with
  | some e => (tbl, .error (.raw e))
  | none => (applyStatusUpdate w.height status now tbl, .ok ())

/-- CreateProof (proof_model.go lines 80-94): the insert result is inspected;
a driver error is returned raw, a zero affected-row count is reported as
DbErrSqlOperation, otherwise the call succeeds.  `execRes` is the outcome of
the insert statement: either a driver error or the affected-row count. -/
def createProof (execRes : Except MysqlErr Nat) : Except QueueErr Unit :=
  match execRes with
  | .error e => .error (.raw e)
  | .ok n => if n = 0 then .error (.db .sqlOperation) else .ok ()

/-!
Statement texts.  To settle the claim about the advisory
maximum-execution-time hint we record, for each queue operation, the exact
statement text handed to the driver.  Only the three WithTimeout wrappers of
utils (db.go lines 46-64) prepend the hint; plain db.Exec and the tx.Query /
tx.Exec calls inside transactions send their query text unchanged.
-/

/-- Text produced by the WithTimeout wrappers (db.go line 48):
the hint, the millisecond budget, then the original query. -/
def withTimeoutText (ms : Nat) (q : String) : String :=
  "/*+ MAX_EXECUTION_TIME(" ++ (toString ms ++ (") */ " ++ q))

/-- Character sequence opening the advisory hint. -/
def hintHeadChars : List Char :=
  '/' :: ("*+ MAX_EXECUTION_TIME(").data

/-- Boolean test that the first list opens the second. -/
def leadsWith : List Char → List Char → Bool
  | [], _ => true
  | _ :: _, [] => false
  | a :: as, b :: bs => a == b && leadsWith as bs

/-- A statement text carries the advisory maximum-execution-time hint when
it opens with the hint comment. -/
def hasTimeHint (s : String) : Bool :=
  leadsWith hintHeadChars s.data

/-- Insert text of CreateBatchWitness (db.go line 322), sent through plain
db.Exec, hence exactly as written. -/
def witnessInsertStmt (table : String) : String :=
  "INSERT INTO " ++ (table ++ " (height, witness_data, status, created_at, updated_at) VALUES (?, ?, ?, NOW(), NOW())")

/-- Statements issued by one CreateBatchWitness call: one insert per input
record (db.go lines 323-328). -/
def createBatchWitnessStmts (table : String) (ws : List BatchWitness) : List String :=
  ws.map (fun _ => witnessInsertStmt table)

/-- Update text shared by UpdateBatchWitnessStatus (db.go line 356) and the
claim-transaction update loops (lines 246 and 292), sent through plain
db.Exec respectively tx.Exec, hence exactly as written. -/
def witnessStatusUpdateStmt (table : String) : String :=
  "UPDATE " ++ (table ++ " SET status = ?, updated_at = NOW() WHERE height = ?")

/-- Locking select text of GetAndUpdateBatchesWitnessByStatus (db.go line
225), sent through tx.Query, hence exactly as written. -/
def claimSelectStmt (table : String) : String :=
  "SELECT id, created_at, updated_at, deleted_at, height, witness_data, status FROM " ++ (table ++ " WHERE status = ? AND deleted_at IS NULL ORDER BY height ASC LIMIT ? FOR UPDATE")

/-- Statements issued inside one by-status claim transaction: the locking
select, then one update per claimed row. -/
def claimByStatusStmts (table : String) (claimed : List BatchWitness) : List String :=
  claimSelectStmt table :: claimed.map (fun _ => witnessStatusUpdateStmt table)

/-- Query text of GetAllBatchHeightsByStatus (db.go line 333) before
wrapping. -/
def heightsSelectStmt (table : String) : String :=
  "SELECT height FROM " ++ (table ++ " WHERE status = ? AND deleted_at IS NULL ORDER BY height ASC LIMIT ? OFFSET ?")

/-- Statement issued by GetAllBatchHeightsByStatus: it goes through
QueryWithTimeout (db.go line 334), so the driver receives the wrapped
text. -/
def getAllBatchHeightsStmt (table : String) (ms : Nat) : String :=
  withTimeoutText ms (heightsSelectStmt table)

/-!
Sample data used by the concrete witnesses and counterexamples.
-/

/-- An oracle that injects no failures. -/
def oracleOk : TxOracle :=
  ⟨none, fun _ => none⟩

/-- Sample active row at height 3, stage Published. -/
def rowH3 : BatchWitness :=
  ⟨1, 0, 0, none, 3, "w3", 0⟩

/-- Sample active row at height 5, stage Published. -/
def rowH5 : BatchWitness :=
  ⟨2, 0, 0, none, 5, "w5", 0⟩

/-- Sample active row at height 7, stage Published. -/
def rowH7 : BatchWitness :=
  ⟨3, 0, 0, none, 7, "w7", 0⟩

/-- Sample soft-deleted row at height 11. -/
def rowH11Deleted : BatchWitness :=
  ⟨4, 0, 0, some 2, 11, "w11", 0⟩

/-!
Basic lemmas about the select machinery.
-/

theorem mem_sortByHeight {a : BatchWitness} {l : List BatchWitness} :
    a ∈ sortByHeight l ↔ a ∈ l :=
  (List.perm_insertionSort heightLeProp l).mem_iff

theorem sortByHeight_sorted (l : List BatchWitness) :
    List.Pairwise (fun a b => a.height ≤ b.height) (sortByHeight l) :=
  List.sorted_insertionSort heightLeProp l

theorem matchesStatus_iff {before : Int} {r : BatchWitness} :
    matchesStatus before r = true ↔ r.status = before ∧ r.deletedAt = none := by
  simp [matchesStatus, Option.isNone_iff_eq_none]

theorem matchesHeightStatus_iff {h before : Int} {r : BatchWitness} :
    matchesHeightStatus h before r = true ↔
      r.height = h ∧ r.status = before ∧ r.deletedAt = none := by
  simp [matchesHeightStatus, Option.isNone_iff_eq_none, and_assoc]

theorem mem_selectForClaimByStatus {before : Int} {count : Nat}
    {tbl : List BatchWitness} {w : BatchWitness}
    (hw : w ∈ selectForClaimByStatus before count tbl) :
    w ∈ tbl ∧ w.status = before ∧ w.deletedAt = none := by
  have h1 : w ∈ sortByHeight (tbl.filter (matchesStatus before)) :=
    List.mem_of_mem_take hw
  have h2 : w ∈ tbl.filter (matchesStatus before) := mem_sortByHeight.mp h1
  have h3 := List.mem_filter.mp h2
  exact ⟨h3.1, matchesStatus_iff.mp h3.2⟩

theorem mem_selectForClaimByHeight {hh before : Int}
    {tbl : List BatchWitness} {w : BatchWitness}
    (hw : w ∈ selectForClaimByHeight hh before tbl) :
    w ∈ tbl ∧ w.height = hh ∧ w.status = before ∧ w.deletedAt = none := by
  have h2 : w ∈ tbl.filter (matchesHeightStatus hh before) := mem_sortByHeight.mp hw
  have h3 := List.mem_filter.mp h2
  exact ⟨h3.1, matchesHeightStatus_iff.mp h3.2⟩

theorem length_selectForClaimByStatus (before : Int) (count : Nat)
    (tbl : List BatchWitness) :
    (selectForClaimByStatus before count tbl).length ≤ count := by
  simp [selectForClaimByStatus]

theorem selectForClaimByStatus_sorted (before : Int) (count : Nat)
    (tbl : List BatchWitness) :
    List.Pairwise (fun a b => a.height ≤ b.height)
      (selectForClaimByStatus before count tbl) :=
  List.Pairwise.sublist (List.take_sublist _ _) (sortByHeight_sorted _)

/-!
Lemmas about the update loop and the shared transaction body.
-/

theorem applyStatusUpdate_sets {h st : Int} {now : Nat}
    {tbl : List BatchWitness} {r : BatchWitness}
    (hr : r ∈ applyStatusUpdate h st now tbl) (hh : r.height = h) :
    r.status = st ∧ r.updatedAt = now := by
  rcases List.mem_map.mp hr with ⟨r0, _, rfl⟩
  by_cases h0 : r0.height = h
  · simp [h0]
  · simp only [if_neg h0] at hh ⊢
    exact absurd hh h0

theorem applyStatusUpdate_preserves {h2 st : Int} {now : Nat} {hgt : Int}
    {tbl : List BatchWitness}
    (hp : ∀ r ∈ tbl, r.height = hgt → r.status = st ∧ r.updatedAt = now) :
    ∀ r ∈ applyStatusUpdate h2 st now tbl, r.height = hgt →
      r.status = st ∧ r.updatedAt = now := by
  intro r hr hh
  rcases List.mem_map.mp hr with ⟨r0, hr0, rfl⟩
  by_cases h0 : r0.height = h2
  · simp [h0]
  · simp only [if_neg h0] at hh ⊢
    exact hp r0 hr0 hh

theorem updateLoop_preserves {o : TxOracle} {now : Nat} {after : Int}
    {hgt : Int} :
    ∀ (ws tbl : List BatchWitness) (i : Nat),
      (∀ r ∈ tbl, r.height = hgt → r.status = after ∧ r.updatedAt = now) →
      ∀ r ∈ (updateLoop o now after tbl i ws).1, r.height = hgt →
        r.status = after ∧ r.updatedAt = now := by
  intro ws
  induction ws with
  | nil => intro tbl i hp; simpa [updateLoop] using hp
  | cons w rest ih =>
    intro tbl i hp
    rw [updateLoop]
    cases o.updateFail i with
    | some e => simpa using hp
    | none =>
      simp only []
      exact ih (applyStatusUpdate w.height after now tbl) (i + 1)
        (applyStatusUpdate_preserves hp)

theorem updateLoop_ok_sets {o : TxOracle} {now : Nat} {after : Int} :
    ∀ (ws tbl : List BatchWitness) (i : Nat) (tbl2 : List BatchWitness),
      updateLoop o now after tbl i ws = (tbl2, none) →
      ∀ w ∈ ws, ∀ r ∈ tbl2, r.height = w.height →
        r.status = after ∧ r.updatedAt = now := by
  intro ws
  induction ws with
  | nil => intro tbl i tbl2 _ w hw; exact absurd hw (List.not_mem_nil w)
  | cons w0 rest ih =>
    intro tbl i tbl2 hloop w hw
    rw [updateLoop] at hloop
    cases hfail : o.updateFail i with
    | some e => rw [hfail] at hloop; simp at hloop
    | none =>
      rw [hfail] at hloop
      simp only [] at hloop
      rcases List.mem_cons.mp hw with rfl | hw2
      · -- the head update establishes the property, the rest preserves it
        have hbase : ∀ r ∈ applyStatusUpdate w.height after now tbl,
            r.height = w.height → r.status = after ∧ r.updatedAt = now :=
          fun r hr hh => applyStatusUpdate_sets hr hh
        have := updateLoop_preserves (o := o) rest
          (applyStatusUpdate w.height after now tbl) (i + 1) hbase
        rw [hloop] at this
        exact this
      · exact ih _ _ _ hloop w hw2

theorem claimTx_error_fst {o : TxOracle} {now : Nat} {tbl : List BatchWitness}
    {after : Int} {ws : List BatchWitness} {e : QueueErr}
    (h : (claimTx o now tbl after ws).2 = .error e) :
    (claimTx o now tbl after ws).1 = tbl := by
  unfold claimTx at *
  by_cases hws : ws = []
  · simp [hws]
  · rcases hu : updateLoop o now after tbl 0 ws with ⟨t2, res⟩
    cases res with
    | none => simp [hws, hu] at h
    | some e2 => simp [hws, hu]

theorem claimTx_notFound_iff {o : TxOracle} {now : Nat}
    {tbl : List BatchWitness} {after : Int} {ws : List BatchWitness} :
    (claimTx o now tbl after ws).2 = .error (.db .notFound) ↔ ws = [] := by
  unfold claimTx
  by_cases hws : ws = []
  · simp [hws]
  · rcases hu : updateLoop o now after tbl 0 ws with ⟨t2, res⟩
    cases res with
    | none => simp [hws, hu]
    | some e2 => simp [hws, hu]

theorem claimTx_ok_rows {o : TxOracle} {now : Nat} {tbl : List BatchWitness}
    {after : Int} {ws ws2 : List BatchWitness}
    (h : (claimTx o now tbl after ws).2 = .ok ws2) : ws2 = ws := by
  unfold claimTx at h
  by_cases hws : ws = []
  · simp [hws] at h
  · rcases hu : updateLoop o now after tbl 0 ws with ⟨t2, res⟩
    cases res with
    | none => simp [hws, hu] at h; exact h.symm
    | some e2 => simp [hws, hu] at h

theorem claimTx_ok_state {o : TxOracle} {now : Nat} {tbl : List BatchWitness}
    {after : Int} {ws ws2 : List BatchWitness}
    (h : (claimTx o now tbl after ws).2 = .ok ws2) :
    updateLoop o now after tbl 0 ws = ((claimTx o now tbl after ws).1, none) := by
  unfold claimTx at *
  by_cases hws : ws = []
  · simp [hws] at h
  · rcases hu : updateLoop o now after tbl 0 ws with ⟨t2, res⟩
    cases res with
    | none => simp [hws, hu]
    | some e2 => simp [hws, hu] at h

theorem claimTx_ok_sets {o : TxOracle} {now : Nat} {tbl : List BatchWitness}
    {after : Int} {ws ws2 : List BatchWitness}
    (h : (claimTx o now tbl after ws).2 = .ok ws2) :
    ∀ w ∈ ws2, ∀ r ∈ (claimTx o now tbl after ws).1, r.height = w.height →
      r.status = after ∧ r.updatedAt = now := by
  have hrows := claimTx_ok_rows h
  subst hrows
  exact updateLoop_ok_sets ws2 tbl 0 _ (claimTx_ok_state h)

theorem selectFail_cases (o : TxOracle) :
    o.selectFail = none ∨ ∃ e, o.selectFail = some e := by
  cases o.selectFail
  · exact Or.inl rfl
  · exact Or.inr ⟨_, rfl⟩

theorem byStatus_error_fst {o : TxOracle} {now : Nat} {tbl : List BatchWitness}
    {before after : Int} {count : Nat} {e : QueueErr}
    (h : (getAndUpdateBatchesWitnessByStatus o now tbl before after count).2 = .error e) :
    (getAndUpdateBatchesWitnessByStatus o now tbl before after count).1 = tbl := by
  rw [getAndUpdateBatchesWitnessByStatus] at h ⊢
  rcases selectFail_cases o with hsel | ⟨e2, hsel⟩ <;> rw [hsel] at h ⊢
  exact claimTx_error_fst h

theorem byHeight_error_fst {o : TxOracle} {now : Nat} {tbl : List BatchWitness}
    {h before after : Int} {e : QueueErr}
    (he : (getAndUpdateBatchesWitnessByHeight o now tbl h before after).2 = .error e) :
    (getAndUpdateBatchesWitnessByHeight o now tbl h before after).1 = tbl := by
  rw [getAndUpdateBatchesWitnessByHeight] at he ⊢
  rcases selectFail_cases o with hsel | ⟨e2, hsel⟩ <;> rw [hsel] at he ⊢
  exact claimTx_error_fst he

/-- C1: a successful GetAndUpdateBatchesWitnessByStatus call returns at most
maxCount records; every returned record is a non-deleted row of the table
whose status was beforeStatus at selection time; the list is in ascending
height order; in the committed table every row at a returned height has
status afterStatus with updatedAt refreshed to the transaction time; and
every returned record still carries the pre-transition status value
beforeStatus. -/
theorem claimBatch_c1_contract (o : TxOracle) (now : Nat)
    (tbl tbl2 : List BatchWitness) (before after : Int) (count : Nat)
    (ws : List BatchWitness)
    (h : getAndUpdateBatchesWitnessByStatus o now tbl before after count = (tbl2, .ok ws)) :
    ws.length ≤ count ∧
    (∀ w ∈ ws, w ∈ tbl ∧ w.status = before ∧ w.deletedAt = none) ∧
    List.Pairwise (fun a b => a.height ≤ b.height) ws ∧
    (∀ w ∈ ws, ∀ r ∈ tbl2, r.height = w.height → r.status = after ∧ r.updatedAt = now) := by
  rw [getAndUpdateBatchesWitnessByStatus] at h
  rcases selectFail_cases o with hsel | ⟨e0, hsel⟩ <;> rw [hsel] at h
  case inr => simp at h
  case inl =>
    have h2 : (claimTx o now tbl after (selectForClaimByStatus before count tbl)).2 = .ok ws :=
      congrArg Prod.snd h
    have h1 : (claimTx o now tbl after (selectForClaimByStatus before count tbl)).1 = tbl2 :=
      congrArg Prod.fst h
    have hrows := claimTx_ok_rows h2
    refine ⟨?_, ?_, ?_, ?_⟩
    · rw [hrows]; exact length_selectForClaimByStatus before count tbl
    · intro w hw
      rw [hrows] at hw
      exact mem_selectForClaimByStatus hw
    · rw [hrows]; exact selectForClaimByStatus_sorted before count tbl
    · intro w hw r hr hh
      have := claimTx_ok_sets h2 w hw
      rw [h1] at this
      exact this r hr hh

/-- The committed table of the C1 witness run. -/
def tblC1After : List BatchWitness :=
  [⟨2, 0, 1, none, 5, "w5", 1⟩, ⟨1, 0, 1, none, 3, "w3", 1⟩, ⟨3, 0, 0, none, 7, "w7", 0⟩]

/-- C1 witness: Published rows at heights 5, 3, 7; ClaimBatch with limit 2
claims heights 3 and 5 in ascending order. -/
theorem claimBatch_c1_contract_witness :
    [rowH3, rowH5].length ≤ 2 ∧
    (∀ w ∈ [rowH3, rowH5], w ∈ [rowH5, rowH3, rowH7] ∧ w.status = 0 ∧ w.deletedAt = none) ∧
    List.Pairwise (fun a b => a.height ≤ b.height) [rowH3, rowH5] ∧
    (∀ w ∈ [rowH3, rowH5], ∀ r ∈ tblC1After, r.height = w.height →
      r.status = 1 ∧ r.updatedAt = 1) :=
  claimBatch_c1_contract oracleOk 1 [rowH5, rowH3, rowH7] tblC1After 0 1 2
    [rowH3, rowH5] (by rfl)

/-- C2: every failing claim call, whether the failure comes from the select
phase, from an update statement, or from an empty selection, commits nothing:
the resulting table is exactly the input table, every row and every field
unchanged. -/
theorem claim_c2_rollback_on_error :
    (∀ (o : TxOracle) (now : Nat) (tbl : List BatchWitness) (before after : Int)
      (count : Nat) (e : QueueErr),
      (getAndUpdateBatchesWitnessByStatus o now tbl before after count).2 = .error e →
      (getAndUpdateBatchesWitnessByStatus o now tbl before after count).1 = tbl) ∧
    (∀ (o : TxOracle) (now : Nat) (tbl : List BatchWitness) (h before after : Int)
      (e : QueueErr),
      (getAndUpdateBatchesWitnessByHeight o now tbl h before after).2 = .error e →
      (getAndUpdateBatchesWitnessByHeight o now tbl h before after).1 = tbl) :=
  ⟨fun _ _ _ _ _ _ _ h => byStatus_error_fst h,
   fun _ _ _ _ _ _ _ h => byHeight_error_fst h⟩

/-- Oracle whose second update statement fails. -/
def oracleFailSecondUpdate : TxOracle :=
  ⟨none, fun i => if i = 1 then some .connLost else none⟩

/-- C2 witness: a claim whose first update succeeded inside the transaction
and whose second update failed leaves the table exactly as it was. -/
theorem claim_c2_rollback_on_error_witness :
    (getAndUpdateBatchesWitnessByStatus oracleFailSecondUpdate 7 [rowH5, rowH3] 0 1 5).1
      = [rowH5, rowH3] :=
  claim_c2_rollback_on_error.1 oracleFailSecondUpdate 7 [rowH5, rowH3] 0 1 5
    (.raw .connLost) (by rfl)

/-- C3 counterexample: with maxCount = 0 the by-status claim fails with
NotFound although a non-deleted row with the requested beforeStatus exists,
so "fails with NotFound if and only if zero non-deleted rows have status
beforeStatus" is false as stated. -/
theorem claim_c3_counterexample :
    (getAndUpdateBatchesWitnessByStatus oracleOk 5 [rowH3] 0 1 0).2
        = .error (.db .notFound) ∧
    [rowH3].filter (matchesStatus 0) ≠ [] := by
  constructor
  · rfl
  · simp [rowH3, matchesStatus]

theorem sortByHeight_eq_nil_iff {l : List BatchWitness} :
    sortByHeight l = [] ↔ l = [] := by
  constructor
  · intro h
    have hp := List.perm_insertionSort heightLeProp l
    rw [sortByHeight] at h
    rw [h] at hp
    exact hp.symm.eq_nil
  · intro h; rw [h]; rfl

theorem selectForClaimByStatus_eq_nil_iff {before : Int} {count : Nat}
    {tbl : List BatchWitness} :
    selectForClaimByStatus before count tbl = [] ↔
      tbl.filter (matchesStatus before) = [] ∨ count = 0 := by
  rw [selectForClaimByStatus, List.take_eq_nil_iff, sortByHeight_eq_nil_iff]
  tauto

/-- C3 amended: in the absence of an injected select failure, the by-status
claim fails with NotFound exactly when no non-deleted row carries
beforeStatus or the maxCount bound is zero; the by-height claim fails with
NotFound exactly when no non-deleted row at that height carries
beforeStatus; and a NotFound outcome commits nothing. -/
theorem claim_c3_notFound_iff :
    (∀ (o : TxOracle) (now : Nat) (tbl : List BatchWitness) (before after : Int)
      (count : Nat), o.selectFail = none →
      (((getAndUpdateBatchesWitnessByStatus o now tbl before after count).2
          = .error (.db .notFound)) ↔
        (tbl.filter (matchesStatus before) = [] ∨ count = 0)) ∧
      ((getAndUpdateBatchesWitnessByStatus o now tbl before after count).2
          = .error (.db .notFound) →
        (getAndUpdateBatchesWitnessByStatus o now tbl before after count).1 = tbl)) ∧
    (∀ (o : TxOracle) (now : Nat) (tbl : List BatchWitness) (h before after : Int),
      o.selectFail = none →
      (((getAndUpdateBatchesWitnessByHeight o now tbl h before after).2
          = .error (.db .notFound)) ↔
        tbl.filter (matchesHeightStatus h before) = []) ∧
      ((getAndUpdateBatchesWitnessByHeight o now tbl h before after).2
          = .error (.db .notFound) →
        (getAndUpdateBatchesWitnessByHeight o now tbl h before after).1 = tbl)) := by
  constructor
  · intro o now tbl before after count hsel
    constructor
    · rw [getAndUpdateBatchesWitnessByStatus, hsel]
      rw [claimTx_notFound_iff, selectForClaimByStatus_eq_nil_iff]
    · intro h; exact byStatus_error_fst h
  · intro o now tbl h before after hsel
    constructor
    · rw [getAndUpdateBatchesWitnessByHeight, hsel]
      rw [claimTx_notFound_iff, selectForClaimByHeight, sortByHeight_eq_nil_iff]
    · intro he; exact byHeight_error_fst he

/-- C3 witness: at a height with no matching row the by-height claim fails
with NotFound, and the iff characterises it. -/
theorem claim_c3_notFound_iff_witness :
    ((getAndUpdateBatchesWitnessByHeight oracleOk 4 [rowH3] 9 0 1).2
        = .error (.db .notFound)) ↔
      [rowH3].filter (matchesHeightStatus 9 0) = [] :=
  (claim_c3_notFound_iff.2 oracleOk 4 [rowH3] 9 0 1 rfl).1

theorem byStatus_ok_sets {o : TxOracle} {now : Nat}
    {tbl tbl2 : List BatchWitness} {before after : Int} {count : Nat}
    {ws : List BatchWitness}
    (h : getAndUpdateBatchesWitnessByStatus o now tbl before after count = (tbl2, .ok ws)) :
    ∀ w ∈ ws, ∀ r ∈ tbl2, r.height = w.height →
      r.status = after ∧ r.updatedAt = now := by
  rw [getAndUpdateBatchesWitnessByStatus] at h
  rcases selectFail_cases o with hsel | ⟨e0, hsel⟩ <;> rw [hsel] at h
  case inr => simp at h
  case inl =>
    have h2 : (claimTx o now tbl after (selectForClaimByStatus before count tbl)).2 = .ok ws :=
      congrArg Prod.snd h
    have h1 : (claimTx o now tbl after (selectForClaimByStatus before count tbl)).1 = tbl2 :=
      congrArg Prod.fst h
    intro w hw r hr hh
    have := claimTx_ok_sets h2 w hw
    rw [h1] at this
    exact this r hr hh

/-- C8: once a by-status claim for the transition beforeStatus to
afterStatus (with distinct statuses) has successfully claimed a row, a
by-height claim for the same transition at that height, run on the committed
table with no intervening mutation and no injected select failure, fails
with NotFound: the row now carries afterStatus, not beforeStatus. -/
theorem claimByHeight_c8_after_claim (o o2 : TxOracle) (now now2 : Nat)
    (tbl tbl2 : List BatchWitness) (before after : Int) (count : Nat)
    (ws : List BatchWitness) (w : BatchWitness)
    (hne : before ≠ after)
    (h : getAndUpdateBatchesWitnessByStatus o now tbl before after count = (tbl2, .ok ws))
    (hw : w ∈ ws) (ho2 : o2.selectFail = none) :
    (getAndUpdateBatchesWitnessByHeight o2 now2 tbl2 w.height before after).2
      = .error (.db .notFound) := by
  have hsets := byStatus_ok_sets h w hw
  rw [getAndUpdateBatchesWitnessByHeight, ho2]
  rw [claimTx_notFound_iff, selectForClaimByHeight, sortByHeight_eq_nil_iff]
  refine List.filter_eq_nil_iff.mpr ?_
  intro r hr hmatch
  rcases matchesHeightStatus_iff.mp hmatch with ⟨hh, hst, _⟩
  have hafter := (hsets r hr hh).1
  exact hne (by rw [← hst, hafter])

/-- The committed table of the C8 witness run. -/
def tblC8After : List BatchWitness :=
  [⟨1, 0, 9, none, 3, "w3", 1⟩]

/-- C8 witness: after claiming height 3 from Published to Received, the
by-height claim of the same transition at height 3 fails with NotFound. -/
theorem claimByHeight_c8_after_claim_witness :
    (getAndUpdateBatchesWitnessByHeight oracleOk 12 tblC8After rowH3.height 0 1).2
      = .error (.db .notFound) :=
  claimByHeight_c8_after_claim oracleOk oracleOk 9 12 [rowH3] tblC8After 0 1 1
    [rowH3] rowH3 (by decide) (by rfl) (by simp) rfl

/-- C9: the paginated heights listing returns exactly the limit/offset page
of the ascending height listing of non-deleted rows with the given status;
it fails with NotFound exactly when that page is empty (in particular when
the offset lies past the end of the result set); the returned page is in
ascending order, respects the limit, and every returned height belongs to a
non-deleted row with the requested status. -/
theorem listHeights_c9_page (tbl : List BatchWitness) (status : Int)
    (limit offset : Nat) :
    (getAllBatchHeightsByStatus tbl status limit offset = .error (.db .notFound) ↔
      heightsPage tbl status limit offset = []) ∧
    (heightsPage tbl status limit offset ≠ [] →
      getAllBatchHeightsByStatus tbl status limit offset
        = .ok (heightsPage tbl status limit offset)) ∧
    List.Pairwise (fun a b : Int => a ≤ b) (heightsPage tbl status limit offset) ∧
    (heightsPage tbl status limit offset).length ≤ limit ∧
    (∀ h ∈ heightsPage tbl status limit offset,
      ∃ r ∈ tbl, r.deletedAt = none ∧ r.status = status ∧ r.height = h) := by
  refine ⟨?_, ?_, ?_, ?_, ?_⟩
  · rw [getAllBatchHeightsByStatus]
    by_cases hp : heightsPage tbl status limit offset = [] <;> simp [hp]
  · intro hp
    rw [getAllBatchHeightsByStatus]
    simp [hp]
  · have hsorted := sortByHeight_sorted (tbl.filter (matchesStatus status))
    have hsub : (((sortByHeight (tbl.filter (matchesStatus status))).drop offset).take
        limit).Sublist (sortByHeight (tbl.filter (matchesStatus status))) :=
      (List.take_sublist _ _).trans (List.drop_sublist _ _)
    exact List.Pairwise.map _ (fun a b hab => hab)
      (List.Pairwise.sublist hsub hsorted)
  · rw [heightsPage, List.length_map]
    exact List.length_take_le _ _
  · intro h hh
    rcases List.mem_map.mp hh with ⟨r, hr, rfl⟩
    have hr2 : r ∈ sortByHeight (tbl.filter (matchesStatus status)) :=
      ((List.take_sublist _ _).trans (List.drop_sublist _ _)).mem hr
    have hr3 := List.mem_filter.mp (mem_sortByHeight.mp hr2)
    rcases matchesStatus_iff.mp hr3.2 with ⟨hst, hdel⟩
    exact ⟨r, hr3.1, hdel, hst, rfl⟩

/-- C9 witness: heights 3, 5, 7 at Published; limit 2 and offset 1 return
the page [5, 7]. -/
theorem listHeights_c9_page_witness :
    getAllBatchHeightsByStatus [rowH5, rowH3, rowH7] 0 2 1
      = .ok (heightsPage [rowH5, rowH3, rowH7] 0 2 1) :=
  (listHeights_c9_page [rowH5, rowH3, rowH7] 0 2 1).2.1 (by decide)

/-!
Concurrency.  The locking select (FOR UPDATE) makes concurrent claim
transactions on overlapping candidate rows serialize: the second blocks
until the first commits, then sees the committed state.  Any concurrent
execution of claim calls is therefore equivalent to running them in some
serial order, which is what `runClaims` models: each call sees the table
committed by the previous one.
-/

/-- One serialized claim request: its failure oracle, its transaction time,
and its maxCount bound. -/
structure ClaimReq where
  oracle : TxOracle
  time : Nat
  count : Nat

/-- The record list a caller obtained from one claim call: the claimed rows
on success, nothing on failure. -/
def resultRows : Except QueueErr (List BatchWitness) → List BatchWitness
  | .ok ws => ws
  | .error _ => []

/-- A serial execution of by-status claim calls, all for the same
beforeStatus to afterStatus transition: each call runs on the table
committed by the previous call; the first component collects the record
list returned by each call, the second is the final table. -/
def runClaims (before after : Int) :
    List ClaimReq → List BatchWitness → List (List BatchWitness) × List BatchWitness
  | [], tbl => ([], tbl)
  | q :: qs, tbl =>
    (resultRows (getAndUpdateBatchesWitnessByStatus q.oracle q.time tbl before after q.count).2 ::
      (runClaims before after qs
        (getAndUpdateBatchesWitnessByStatus q.oracle q.time tbl before after q.count).1).1,
     (runClaims before after qs
        (getAndUpdateBatchesWitnessByStatus q.oracle q.time tbl before after q.count).1).2)

/-- How one row can change under claim transactions for a fixed afterStatus:
identity, height, soft-delete marker, payload and creation time never
change; the status either stays or becomes afterStatus. -/
def Evolves (after : Int) (r r2 : BatchWitness) : Prop :=
  r2.id = r.id ∧ r2.height = r.height ∧ r2.deletedAt = r.deletedAt ∧
  r2.witnessData = r.witnessData ∧ r2.createdAt = r.createdAt ∧
  (r2.status = r.status ∨ r2.status = after)

/-- Row-wise evolution of a whole table. -/
def EvolveTbl (after : Int) (tbl tbl2 : List BatchWitness) : Prop :=
  List.Forall₂ (Evolves after) tbl tbl2

theorem evolves_refl (after : Int) (r : BatchWitness) : Evolves after r r :=
  ⟨rfl, rfl, rfl, rfl, rfl, Or.inl rfl⟩

theorem evolves_trans {after : Int} {r1 r2 r3 : BatchWitness}
    (h12 : Evolves after r1 r2) (h23 : Evolves after r2 r3) :
    Evolves after r1 r3 := by
  obtain ⟨a1, a2, a3, a4, a5, a6⟩ := h12
  obtain ⟨b1, b2, b3, b4, b5, b6⟩ := h23
  refine ⟨b1.trans a1, b2.trans a2, b3.trans a3, b4.trans a4, b5.trans a5, ?_⟩
  rcases b6 with b6 | b6
  · rcases a6 with a6 | a6
    · exact Or.inl (b6.trans a6)
    · exact Or.inr (b6.trans a6)
  · exact Or.inr b6

theorem evolveTbl_refl (after : Int) (tbl : List BatchWitness) :
    EvolveTbl after tbl tbl := by
  induction tbl with
  | nil => exact List.Forall₂.nil
  | cons r rest ih => exact List.Forall₂.cons (evolves_refl after r) ih

theorem evolveTbl_trans {after : Int} :
    ∀ {t1 t2 t3 : List BatchWitness},
      EvolveTbl after t1 t2 → EvolveTbl after t2 t3 → EvolveTbl after t1 t3 := by
  intro t1 t2 t3 h12
  induction h12 generalizing t3 with
  | nil => intro h23; cases h23; exact List.Forall₂.nil
  | cons hpt hrest ih =>
    intro h23
    cases h23 with
    | cons hpt2 hrest2 => exact List.Forall₂.cons (evolves_trans hpt hpt2) (ih hrest2)

theorem applyStatusUpdate_evolves (h after : Int) (now : Nat)
    (tbl : List BatchWitness) :
    EvolveTbl after tbl (applyStatusUpdate h after now tbl) := by
  induction tbl with
  | nil => exact List.Forall₂.nil
  | cons r rest ih =>
    refine List.Forall₂.cons ?_ ih
    by_cases hr : r.height = h
    · simp only [if_pos hr]
      exact ⟨rfl, rfl, rfl, rfl, rfl, Or.inr rfl⟩
    · simp only [if_neg hr]
      exact evolves_refl after r

theorem updateLoop_evolves (o : TxOracle) (now : Nat) (after : Int) :
    ∀ (ws tbl : List BatchWitness) (i : Nat),
      EvolveTbl after tbl (updateLoop o now after tbl i ws).1 := by
  intro ws
  induction ws with
  | nil => intro tbl i; exact evolveTbl_refl after tbl
  | cons w rest ih =>
    intro tbl i
    rw [updateLoop]
    cases o.updateFail i with
    | some e => exact evolveTbl_refl after tbl
    | none =>
      exact evolveTbl_trans (applyStatusUpdate_evolves w.height after now tbl)
        (ih (applyStatusUpdate w.height after now tbl) (i + 1))

theorem claimTx_evolves (o : TxOracle) (now : Nat) (tbl : List BatchWitness)
    (after : Int) (ws : List BatchWitness) :
    EvolveTbl after tbl (claimTx o now tbl after ws).1 := by
  rw [claimTx]
  by_cases hws : ws = []
  · simp only [if_pos hws]
    exact evolveTbl_refl after tbl
  · simp only [if_neg hws]
    rcases hu : updateLoop o now after tbl 0 ws with ⟨t2, res⟩
    cases res with
    | some e => exact evolveTbl_refl after tbl
    | none =>
      have := updateLoop_evolves o now after ws tbl 0
      rw [hu] at this
      exact this

theorem byStatus_evolves (o : TxOracle) (now : Nat) (tbl : List BatchWitness)
    (before after : Int) (count : Nat) :
    EvolveTbl after tbl (getAndUpdateBatchesWitnessByStatus o now tbl before after count).1 := by
  rw [getAndUpdateBatchesWitnessByStatus]
  rcases selectFail_cases o with hsel | ⟨e, hsel⟩ <;> rw [hsel]
  · exact claimTx_evolves o now tbl after (selectForClaimByStatus before count tbl)
  · exact evolveTbl_refl after tbl

theorem byStatus_ok_mem {o : TxOracle} {now : Nat}
    {tbl tbl2 : List BatchWitness} {before after : Int} {count : Nat}
    {ws : List BatchWitness}
    (h : getAndUpdateBatchesWitnessByStatus o now tbl before after count = (tbl2, .ok ws)) :
    ∀ w ∈ ws, w ∈ tbl ∧ w.status = before ∧ w.deletedAt = none := by
  rw [getAndUpdateBatchesWitnessByStatus] at h
  rcases selectFail_cases o with hsel | ⟨e0, hsel⟩ <;> rw [hsel] at h
  case inr => simp at h
  case inl =>
    have h2 : (claimTx o now tbl after (selectForClaimByStatus before count tbl)).2 = .ok ws :=
      congrArg Prod.snd h
    have hrows := claimTx_ok_rows h2
    intro w hw
    rw [hrows] at hw
    exact mem_selectForClaimByStatus hw

theorem byStatus_resultRows_mem {o : TxOracle} {now : Nat}
    {tbl t1 : List BatchWitness} {before after : Int} {count : Nat}
    {res : Except QueueErr (List BatchWitness)}
    (hstep : getAndUpdateBatchesWitnessByStatus o now tbl before after count = (t1, res)) :
    ∀ w ∈ resultRows res, w ∈ tbl ∧ w.status = before ∧ w.deletedAt = none := by
  cases res with
  | error e => intro w hw; simp [resultRows] at hw
  | ok ws =>
    intro w hw
    simp only [resultRows] at hw
    exact byStatus_ok_mem hstep w hw

/-- Every row of the table carrying the given height already bears the
afterStatus stage. -/
def AllAtHeightDone (after h : Int) (tbl : List BatchWitness) : Prop :=
  ∀ r ∈ tbl, r.height = h → r.status = after

theorem byStatus_resultRows_done {o : TxOracle} {now : Nat}
    {tbl t1 : List BatchWitness} {before after : Int} {count : Nat}
    {res : Except QueueErr (List BatchWitness)}
    (hstep : getAndUpdateBatchesWitnessByStatus o now tbl before after count = (t1, res)) :
    ∀ w ∈ resultRows res, AllAtHeightDone after w.height t1 := by
  cases res with
  | error e => intro w hw; simp [resultRows] at hw
  | ok ws =>
    intro w hw
    simp only [resultRows] at hw
    intro r hr hh
    exact (byStatus_ok_sets hstep w hw r hr hh).1

theorem evolveTbl_preserves_done {after h : Int} :
    ∀ {t t2 : List BatchWitness}, EvolveTbl after t t2 →
      AllAtHeightDone after h t → AllAtHeightDone after h t2 := by
  intro t t2 hE
  induction hE with
  | nil => intro _ r hr; exact absurd hr (List.not_mem_nil r)
  | @cons a b l1 l2 hpt hrest ih =>
    intro hd r hr hh
    rcases List.mem_cons.mp hr with rfl | hr2
    · obtain ⟨-, hht, -, -, -, hst⟩ := hpt
      have ha : a.status = after :=
        hd a (List.mem_cons_self a l1) (by rw [← hht]; exact hh)
      rcases hst with h1 | h1
      · rw [h1]; exact ha
      · exact h1
    · exact ih (fun r2 hr2m hh2 => hd r2 (List.mem_cons_of_mem a hr2m) hh2) r hr2 hh

theorem evolveTbl_origin {before after : Int} (hne : before ≠ after) :
    ∀ {t0 t : List BatchWitness}, EvolveTbl after t0 t →
      ∀ {w : BatchWitness}, w ∈ t → w.status = before → w.deletedAt = none →
      ∃ r ∈ t0, r.height = w.height ∧ r.status = before ∧ r.deletedAt = none := by
  intro t0 t hE
  induction hE with
  | nil => intro w hw _ _; exact absurd hw (List.not_mem_nil w)
  | @cons a b l1 l2 hpt hrest ih =>
    intro w hw hst hdel
    rcases List.mem_cons.mp hw with rfl | hw2
    · obtain ⟨-, hht, hdel2, -, -, hstat⟩ := hpt
      have hstA : a.status = before := by
        rcases hstat with h1 | h1
        · rw [← h1]; exact hst
        · exact absurd (h1.symm.trans hst) (Ne.symm hne)
      exact ⟨a, List.mem_cons_self a l1, hht.symm, hstA, hdel2 ▸ hdel⟩
    · rcases ih hw2 hst hdel with ⟨r, hr, hrs⟩
      exact ⟨r, List.mem_cons_of_mem a hr, hrs⟩

theorem runClaims_avoids_done {before after : Int} (hne : before ≠ after) :
    ∀ (qs : List ClaimReq) (tbl : List BatchWitness) (h : Int),
      AllAtHeightDone after h tbl →
      ∀ ws ∈ (runClaims before after qs tbl).1, ∀ w ∈ ws, w.height ≠ h := by
  intro qs
  induction qs with
  | nil => intro tbl h _ ws hws; simp [runClaims] at hws
  | cons q rest ih =>
    intro tbl h hd ws hws
    simp only [runClaims] at hws
    rcases List.mem_cons.mp hws with rfl | htail
    · intro w hw hh
      have hm := byStatus_resultRows_mem rfl w hw
      have hafter := hd w hm.1 hh
      exact hne (hm.2.1.symm.trans hafter)
    · have hd1 : AllAtHeightDone after h
          (getAndUpdateBatchesWitnessByStatus q.oracle q.time tbl before after q.count).1 :=
        evolveTbl_preserves_done
          (byStatus_evolves q.oracle q.time tbl before after q.count) hd
      exact ih _ h hd1 ws htail

theorem runClaims_aux {before after : Int} (hne : before ≠ after)
    (tbl0 : List BatchWitness) :
    ∀ (qs : List ClaimReq) (t : List BatchWitness), EvolveTbl after tbl0 t →
      (∀ ws ∈ (runClaims before after qs t).1, ∀ w ∈ ws,
        ∃ r ∈ tbl0, r.height = w.height ∧ r.status = before ∧ r.deletedAt = none) ∧
      List.Pairwise (fun ws1 ws2 => ∀ w1 ∈ ws1, ∀ w2 ∈ ws2, w1.height ≠ w2.height)
        (runClaims before after qs t).1 := by
  intro qs
  induction qs with
  | nil =>
    intro t _
    constructor
    · intro ws hws; simp [runClaims] at hws
    · simp [runClaims]
  | cons q rest ih =>
    intro t hE
    have hE1 : EvolveTbl after tbl0
        (getAndUpdateBatchesWitnessByStatus q.oracle q.time t before after q.count).1 :=
      evolveTbl_trans hE (byStatus_evolves q.oracle q.time t before after q.count)
    constructor
    · intro ws hws w hw
      simp only [runClaims] at hws
      rcases List.mem_cons.mp hws with rfl | htail
      · have hm := byStatus_resultRows_mem rfl w hw
        exact evolveTbl_origin hne hE hm.1 hm.2.1 hm.2.2
      · exact (ih _ hE1).1 ws htail w hw
    · simp only [runClaims]
      refine List.Pairwise.cons ?_ (ih _ hE1).2
      intro ws2 hws2 w1 hw1 w2 hw2
      have hdone := byStatus_resultRows_done rfl w1 hw1
      exact fun hh =>
        (runClaims_avoids_done hne rest _ w1.height hdone ws2 hws2 w2 hw2) hh.symm

/-- C4: under the serialization that the FOR UPDATE row locks enforce, any
set of claim calls for one beforeStatus to afterStatus transition (with
distinct statuses) partitions the matching rows: every returned record
corresponds to a non-deleted row of the initial table that carried
beforeStatus, and no height is returned by two different calls. -/
theorem claimBatch_c4_disjoint (before after : Int) (qs : List ClaimReq)
    (tbl : List BatchWitness) (hne : before ≠ after) :
    (∀ ws ∈ (runClaims before after qs tbl).1, ∀ w ∈ ws,
      ∃ r ∈ tbl, r.height = w.height ∧ r.status = before ∧ r.deletedAt = none) ∧
    List.Pairwise (fun ws1 ws2 => ∀ w1 ∈ ws1, ∀ w2 ∈ ws2, w1.height ≠ w2.height)
      (runClaims before after qs tbl).1 :=
  runClaims_aux hne tbl qs tbl (evolveTbl_refl after tbl)

/-- C4 witness: two serialized claims over three Published rows return
pairwise height-disjoint record sets. -/
theorem claimBatch_c4_disjoint_witness :
    List.Pairwise (fun ws1 ws2 => ∀ w1 ∈ ws1, ∀ w2 ∈ ws2, w1.height ≠ w2.height)
      (runClaims 0 1 [⟨oracleOk, 1, 1⟩, ⟨oracleOk, 2, 2⟩] [rowH5, rowH3, rowH7]).1 :=
  (claimBatch_c4_disjoint 0 1 [⟨oracleOk, 1, 1⟩, ⟨oracleOk, 2, 2⟩]
    [rowH5, rowH3, rowH7] (by decide)).2

/-- C10: the schema declares the height column UNIQUE with no deleted_at
filter, so inserting a record whose height equals the height of any existing
row, soft-deleted or not, fails with the uniqueness-violation error and
leaves the table unchanged. -/
theorem schema_c10_height_unique_all_rows (now fid : Nat)
    (tbl : List BatchWitness) (r w : BatchWitness) (ws : List BatchWitness)
    (hr : r ∈ tbl) (hh : w.height = r.height) :
    createBatchWitness now fid tbl (w :: ws) = (tbl, .error (.raw .dupEntry)) := by
  rw [createBatchWitness]
  have hex : heightExists tbl w.height = true := by
    rw [heightExists, List.any_eq_true]
    exact ⟨r, hr, by simp [hh]⟩
  rw [if_pos hex]

/-- C10 witness: the blocking row is soft-deleted, and the insert at its
height still fails with the uniqueness violation. -/
theorem schema_c10_height_unique_all_rows_witness :
    createBatchWitness 9 5 [rowH11Deleted] [⟨0, 0, 0, none, 11, "x", 0⟩]
        = ([rowH11Deleted], .error (.raw .dupEntry)) ∧
    rowH11Deleted.deletedAt = some 2 :=
  ⟨schema_c10_height_unique_all_rows 9 5 [rowH11Deleted] rowH11Deleted
      ⟨0, 0, 0, none, 11, "x", 0⟩ [] (by simp) rfl, rfl⟩

/-- C5 counterexample: enqueueing a duplicate height makes CreateBatchWitness
return the raw driver uniqueness error (db.go line 326 returns err without
ConvertMysqlErrToDbErr), which is not the translated Conflict kind, so the
raw store error does escape the queue interface. -/
theorem enqueue_c5_counterexample :
    createBatchWitness 9 7 [rowH3] [⟨0, 0, 0, none, 3, "dup", 0⟩]
        = ([rowH3], .error (.raw .dupEntry)) ∧
    QueueErr.raw .dupEntry ≠ .db .conflict := by
  exact ⟨rfl, by decide⟩

/-- C5 amended: enqueueing a record whose height already exists fails and
the failure is reported to the caller, but as the raw store
uniqueness-violation error: CreateBatchWitness performs no boundary
translation, so the error is not the Conflict kind. -/
theorem enqueue_c5_raw_error (now fid : Nat) (tbl : List BatchWitness)
    (w : BatchWitness) (ws : List BatchWitness)
    (hdup : heightExists tbl w.height = true) :
    createBatchWitness now fid tbl (w :: ws) = (tbl, .error (.raw .dupEntry)) ∧
    ∀ e : DbErr, QueueErr.raw .dupEntry ≠ .db e := by
  constructor
  · rw [createBatchWitness, if_pos hdup]
  · intro e h; cases h

/-- C5 witness: a duplicate-height enqueue at height 5. -/
theorem enqueue_c5_raw_error_witness :
    createBatchWitness 1 9 [rowH5] [⟨0, 0, 0, none, 5, "d", 0⟩]
        = ([rowH5], .error (.raw .dupEntry)) ∧
    ∀ e : DbErr, QueueErr.raw .dupEntry ≠ .db e :=
  enqueue_c5_raw_error 1 9 [rowH5] ⟨0, 0, 0, none, 5, "d", 0⟩ [] (by rfl)

/-- C7 counterexample: UpdateBatchWitnessStatus against a table holding no
row at the given height affects zero rows, yet it succeeds instead of
failing with the StorageFailure kind: the code discards the affected-row
count of the update result (db.go line 357). -/
theorem updateStatus_c7_counterexample :
    (updateBatchWitnessStatus none 5 [] rowH3 2).2 = .ok () ∧
    (updateBatchWitnessStatus none 5 [] rowH3 2).2 ≠ .error (.db .sqlOperation) ∧
    ([] : List BatchWitness).filter (fun r => r.height == rowH3.height) = [] := by
  refine ⟨rfl, by decide, rfl⟩

/-- C7 amended: CreateProof inspects the affected-row count and reports a
zero count as DbErrSqlOperation (the StorageFailure kind), succeeds on a
positive count, and returns driver errors raw; UpdateBatchWitnessStatus, by
contrast, discards the affected-row count and succeeds whenever the update
statement itself does, even when no row carries the given height. -/
theorem writes_c7_affected_rows :
    createProof (.ok 0) = .error (.db .sqlOperation) ∧
    (∀ n : Nat, n ≠ 0 → createProof (.ok n) = .ok ()) ∧
    (∀ e : MysqlErr, createProof (.error e) = .error (.raw e)) ∧
    (∀ (now : Nat) (tbl : List BatchWitness) (w : BatchWitness) (st : Int),
      (updateBatchWitnessStatus none now tbl w st).2 = .ok ()) := by
  refine ⟨rfl, ?_, ?_, ?_⟩
  · intro n hn; simp [createProof, hn]
  · intro e; rfl
  · intro now tbl w st; rfl

/-- C7 witness: a one-row insert result makes CreateProof succeed. -/
theorem writes_c7_affected_rows_witness :
    createProof (.ok 1) = .ok () :=
  writes_c7_affected_rows.2.1 1 (by decide)

/-!
The advisory maximum-execution-time hint.
-/

theorem leadsWith_append (p l : List Char) : leadsWith p (p ++ l) = true := by
  induction p with
  | nil => rfl
  | cons a as ih => simp [leadsWith, ih]

theorem hasTimeHint_withTimeoutText (ms : Nat) (q : String) :
    hasTimeHint (withTimeoutText ms q) = true := by
  rw [hasTimeHint, withTimeoutText, String.data_append]
  have hd : ("/*+ MAX_EXECUTION_TIME(").data = hintHeadChars := rfl
  rw [hd]
  exact leadsWith_append hintHeadChars _

theorem leadsWith_hint_head_false {c : Char} (hc : ('/' == c) = false)
    (cs : List Char) : leadsWith hintHeadChars (c :: cs) = false := by
  have hh : hintHeadChars = '/' :: ("*+ MAX_EXECUTION_TIME(").data := rfl
  rw [hh]
  simp [leadsWith, hc]

theorem hasTimeHint_insert_false (table : String) :
    hasTimeHint (witnessInsertStmt table) = false := by
  rw [hasTimeHint, witnessInsertStmt, String.data_append]
  have hd : ("INSERT INTO ").data = 'I' :: ("NSERT INTO ").data := rfl
  rw [hd, List.cons_append]
  exact leadsWith_hint_head_false (by decide) _

theorem hasTimeHint_update_false (table : String) :
    hasTimeHint (witnessStatusUpdateStmt table) = false := by
  rw [hasTimeHint, witnessStatusUpdateStmt, String.data_append]
  have hd : ("UPDATE ").data = 'U' :: ("PDATE ").data := rfl
  rw [hd, List.cons_append]
  exact leadsWith_hint_head_false (by decide) _

theorem hasTimeHint_claimSelect_false (table : String) :
    hasTimeHint (claimSelectStmt table) = false := by
  rw [hasTimeHint, claimSelectStmt, String.data_append]
  have hd : ("SELECT id, created_at, updated_at, deleted_at, height, witness_data, status FROM ").data
      = 'S' :: ("ELECT id, created_at, updated_at, deleted_at, height, witness_data, status FROM ").data := rfl
  rw [hd, List.cons_append]
  exact leadsWith_hint_head_false (by decide) _

/-- C6 counterexample: the insert statement issued by CreateBatchWitness
goes through plain db.Exec (db.go line 324), so its text does not open with
the advisory maximum-execution-time hint; the claim that every statement the
queue issues carries the hint is false. -/
theorem timeout_c6_counterexample :
    (createBatchWitnessStmts ("witness") [rowH3]).all hasTimeHint = false ∧
    (createBatchWitnessStmts ("witness") [rowH3]).length = 1 :=
  ⟨by rfl, rfl⟩

/-- C6 amended: only statements issued through the WithTimeout wrappers
carry the advisory hint.  GetAllBatchHeightsByStatus goes through
QueryWithTimeout and is hinted, but the enqueue inserts, the unconditional
status setter, and every statement inside the claim transactions go through
plain db.Exec or tx.Query and tx.Exec and carry no hint. -/
theorem timeout_c6_hint_coverage :
    (∀ (table : String) (ms : Nat),
      hasTimeHint (getAllBatchHeightsStmt table ms) = true) ∧
    (∀ (table : String) (ws : List BatchWitness) (s : String),
      s ∈ createBatchWitnessStmts table ws → hasTimeHint s = false) ∧
    (∀ table : String, hasTimeHint (witnessStatusUpdateStmt table) = false) ∧
    (∀ (table : String) (claimed : List BatchWitness) (s : String),
      s ∈ claimByStatusStmts table claimed → hasTimeHint s = false) := by
  refine ⟨?_, ?_, ?_, ?_⟩
  · intro table ms
    exact hasTimeHint_withTimeoutText ms (heightsSelectStmt table)
  · intro table ws s hs
    rcases List.mem_map.mp hs with ⟨w, _, rfl⟩
    exact hasTimeHint_insert_false table
  · exact hasTimeHint_update_false
  · intro table claimed s hs
    rcases List.mem_cons.mp hs with rfl | htail
    · exact hasTimeHint_claimSelect_false table
    · rcases List.mem_map.mp htail with ⟨w, _, rfl⟩
      exact hasTimeHint_update_false table

/-- C6 witness: the enqueue insert statement carries no hint while the
wrapped heights query does. -/
theorem timeout_c6_hint_coverage_witness :
    hasTimeHint (witnessInsertStmt ("witness")) = false ∧
    hasTimeHint (getAllBatchHeightsStmt ("witness") 10000000) = true :=
  ⟨timeout_c6_hint_coverage.2.1 ("witness") [rowH3] (witnessInsertStmt ("witness"))
      (by simp [createBatchWitnessStmts]),
   timeout_c6_hint_coverage.1 ("witness") 10000000⟩
